import Mathlib

/-!
Verification of the gserv request-dispatch core (rate limiter, trie router,
dispatch chain) against its natural-language specification.

The Go code is shallowly embedded: Go `int64` values become `Int`,
`time.Duration` becomes `Int` nanoseconds, `time.Time` values become `Int`
Unix seconds (or nanoseconds where the code subtracts times), and fallible
results become `Option`-carrying structures.  Mutation of the `*Limiter`
receiver becomes explicit state passing: `Limiter.Allowed` returns the
result together with the updated limiter.
-/

namespace Gserv

/-- `time.Second` in nanoseconds. -/
def nsSecond : Int := 1000000000

/-- `time.Minute` in nanoseconds. -/
def nsMinute : Int := 60 * nsSecond

/-- `time.Hour` in nanoseconds. -/
def nsHour : Int := 60 * nsMinute

/-- Which window produced a rate-limit error (the three `fmt.Errorf` sites of
`Limiter.Allowed`); the error text itself is not modelled. -/
inductive Window where
  | second
  | minute
  | hour
deriving DecidableEq, Repr

/-- The `Limiter` struct of ratelimit.go (the `sync.RWMutex` is not part of
the sequential model). -/
structure Limiter where
  maxPerSecond : Int
  maxPerMinute : Int
  maxPerHour   : Int
  reqPerSecond : Int
  reqPerMinute : Int
  reqPerHour   : Int
  lastSec  : Int
  lastMin  : Int
  lastHour : Int
  totalAllowed : Int
  totalBlocked : Int
deriving DecidableEq, Repr

/-- `NewLimiter`: `ts` is the `time.Now().Unix()` value at creation. -/
def NewLimiter (ts maxPerSecond maxPerMinute maxPerHour : Int) : Limiter where
  maxPerSecond := maxPerSecond
  maxPerMinute := maxPerMinute
  maxPerHour := maxPerHour
  reqPerSecond := 0
  reqPerMinute := 0
  reqPerHour := 0
  lastSec := ts
  lastMin := ts
  lastHour := ts
  totalAllowed := 0
  totalBlocked := 0

/-- The pair returned by `Limiter.Allowed`: the retry duration `d` in
nanoseconds and, in place of the Go `error`, which window rejected the call
(`none` = the call is allowed). -/
structure AllowedResult where
  d : Int
  err : Option Window
deriving DecidableEq, Repr

/-- The hour-window reset at the top of `Allowed`:
`if now-l.lastHour > 3599 { l.reqPerHour = 0; l.lastHour = now }`. -/
def Limiter.hourReset (l : Limiter) (now : Int) : Limiter :=
  if now - l.lastHour > 3599 then { l with reqPerHour := 0, lastHour := now } else l

/-- The minute-window reset:
`if now-l.lastMin > 59 { l.reqPerMinute = 0; l.lastMin = now }`. -/
def Limiter.minReset (l : Limiter) (now : Int) : Limiter :=
  if now - l.lastMin > 59 then { l with reqPerMinute := 0, lastMin := now } else l

/-- The second-window reset:
`if now-l.lastSec > 0 { l.lastSec = now; l.reqPerSecond = 0 }`. -/
def Limiter.secReset (l : Limiter) (now : Int) : Limiter :=
  if now - l.lastSec > 0 then { l with reqPerSecond := 0, lastSec := now } else l

/-- Hour reset followed by the increment `l.reqPerHour++`. -/
def Limiter.hourStep (l : Limiter) (now : Int) : Limiter :=
  { l.hourReset now with reqPerHour := (l.hourReset now).reqPerHour + 1 }

/-- Minute reset followed by the increment `l.reqPerMinute++`. -/
def Limiter.minStep (l : Limiter) (now : Int) : Limiter :=
  { l.minReset now with reqPerMinute := (l.minReset now).reqPerMinute + 1 }

/-- Second reset followed by the increment `l.reqPerSecond++`. -/
def Limiter.secStep (l : Limiter) (now : Int) : Limiter :=
  { l.secReset now with reqPerSecond := (l.secReset now).reqPerSecond + 1 }

/-- The deferred `l.totalAllowed++` of `Allowed` when `err == nil`. -/
def Limiter.allow (l : Limiter) : Limiter :=
  { l with totalAllowed := l.totalAllowed + 1 }

/-- The deferred `l.totalBlocked++` of `Allowed` when `err != nil`. -/
def Limiter.block (l : Limiter) : Limiter :=
  { l with totalBlocked := l.totalBlocked + 1 }

/-- `Limiter.Allowed` (ratelimit.go lines 90-134).  `now` is
`time.Now().Unix()`.  Returns the `(d, err)` pair and the updated limiter
state (the receiver after the call, including the deferred total counters). -/
def Limiter.Allowed (l : Limiter) (now : Int) : AllowedResult × Limiter :=
  if (l.hourStep now).reqPerHour > (l.hourStep now).maxPerHour then
    (⟨nsHour - nsSecond * (now - (l.hourStep now).lastHour), some .hour⟩,
      (l.hourStep now).block)
  else if ((l.hourStep now).minStep now).reqPerMinute >
      ((l.hourStep now).minStep now).maxPerMinute then
    (⟨nsMinute - nsSecond * (now - ((l.hourStep now).minStep now).lastMin), some .minute⟩,
      ((l.hourStep now).minStep now).block)
  else if (((l.hourStep now).minStep now).secStep now).reqPerSecond >
      (((l.hourStep now).minStep now).secStep now).maxPerSecond then
    (⟨nsSecond - nsSecond * (now - (((l.hourStep now).minStep now).secStep now).lastSec),
        some .second⟩,
      (((l.hourStep now).minStep now).secStep now).block)
  else
    (⟨0, none⟩, (((l.hourStep now).minStep now).secStep now).allow)

/-- `Limiter.LastAction` without the `time.Unix` wrapper: the Unix-seconds
value `max(l.lastSec, l.lastMin, l.lastHour)`. -/
def Limiter.lastAction (l : Limiter) : Int :=
  max (max l.lastSec l.lastMin) l.lastHour

/-- `Limiter.RequestsLeft`, returning `(perSecond, perMinute, perHour)`. -/
def Limiter.RequestsLeft (l : Limiter) : Int × Int × Int :=
  (max 0 (l.maxPerSecond - l.reqPerSecond),
   max 0 (l.maxPerMinute - l.reqPerMinute),
   max 0 (l.maxPerHour - l.reqPerHour))

/-- A sequence of calls to `Allowed` at the given `time.Now().Unix()`
timestamps, keeping only the final limiter state. -/
def Limiter.allowedSeq (l : Limiter) (times : List Int) : Limiter :=
  times.foldl (fun acc t => (acc.Allowed t).2) l

/-- The "hour window would reject this call" condition of `Allowed`:
after the hour reset, the incremented counter exceeds `maxPerHour`. -/
abbrev Limiter.hourExceeds (l : Limiter) (now : Int) : Prop :=
  (l.hourReset now).reqPerHour + 1 > l.maxPerHour

/-- The "minute window would reject this call" condition of `Allowed`. -/
abbrev Limiter.minuteExceeds (l : Limiter) (now : Int) : Prop :=
  (l.minReset now).reqPerMinute + 1 > l.maxPerMinute

/-- The "second window would reject this call" condition of `Allowed`. -/
abbrev Limiter.secondExceeds (l : Limiter) (now : Int) : Prop :=
  (l.secReset now).reqPerSecond + 1 > l.maxPerSecond

/-- Each call to `Allowed` increments exactly one of the two cumulative
totals. -/
lemma allowed_total_step (l : Limiter) (now : Int) :
    (l.Allowed now).2.totalAllowed + (l.Allowed now).2.totalBlocked =
      l.totalAllowed + l.totalBlocked + 1 := by
  simp only [Limiter.Allowed, Limiter.hourStep, Limiter.minStep, Limiter.secStep,
    Limiter.hourReset, Limiter.minReset, Limiter.secReset, Limiter.allow, Limiter.block]
  split_ifs <;> simp_all <;> omega

/-- The totals accumulated over a call sequence. -/
lemma allowedSeq_total (l : Limiter) (times : List Int) :
    (l.allowedSeq times).totalAllowed + (l.allowedSeq times).totalBlocked =
      l.totalAllowed + l.totalBlocked + times.length := by
  induction times generalizing l with
  | nil => simp [Limiter.allowedSeq]
  | cons t ts ih =>
    have h := allowed_total_step l t
    have h2 := ih ((l.Allowed t).2)
    simp only [Limiter.allowedSeq, List.foldl, List.length_cons] at h2 ⊢
    omega

/-- `Allowed` keeps the per-window counters nonnegative. -/
lemma allowed_counters_nonneg (l : Limiter) (now : Int)
    (hs : 0 ≤ l.reqPerSecond) (hm : 0 ≤ l.reqPerMinute) (hh : 0 ≤ l.reqPerHour) :
    0 ≤ (l.Allowed now).2.reqPerSecond ∧ 0 ≤ (l.Allowed now).2.reqPerMinute ∧
      0 ≤ (l.Allowed now).2.reqPerHour := by
  simp only [Limiter.Allowed, Limiter.hourStep, Limiter.minStep, Limiter.secStep,
    Limiter.hourReset, Limiter.minReset, Limiter.secReset, Limiter.allow, Limiter.block]
  split_ifs <;> simp_all <;> omega

/-- The maxima are never modified by `Allowed`. -/
lemma allowed_max_frame (l : Limiter) (now : Int) :
    (l.Allowed now).2.maxPerSecond = l.maxPerSecond ∧
    (l.Allowed now).2.maxPerMinute = l.maxPerMinute ∧
    (l.Allowed now).2.maxPerHour = l.maxPerHour := by
  simp only [Limiter.Allowed, Limiter.hourStep, Limiter.minStep, Limiter.secStep,
    Limiter.hourReset, Limiter.minReset, Limiter.secReset, Limiter.allow, Limiter.block]
  split_ifs <;> simp_all

/-- Counter nonnegativity and the maxima are invariant along any call
sequence starting from `NewLimiter`. -/
lemma allowedSeq_invariant (l : Limiter) (times : List Int)
    (hs : 0 ≤ l.reqPerSecond) (hm : 0 ≤ l.reqPerMinute) (hh : 0 ≤ l.reqPerHour) :
    (0 ≤ (l.allowedSeq times).reqPerSecond ∧ 0 ≤ (l.allowedSeq times).reqPerMinute ∧
      0 ≤ (l.allowedSeq times).reqPerHour) ∧
    (l.allowedSeq times).maxPerSecond = l.maxPerSecond ∧
    (l.allowedSeq times).maxPerMinute = l.maxPerMinute ∧
    (l.allowedSeq times).maxPerHour = l.maxPerHour := by
  induction times generalizing l with
  | nil => simp_all [Limiter.allowedSeq]
  | cons t ts ih =>
    obtain ⟨h1, h2, h3⟩ := allowed_counters_nonneg l t hs hm hh
    obtain ⟨m1, m2, m3⟩ := allowed_max_frame l t
    have := ih ((l.Allowed t).2) h1 h2 h3
    simp only [Limiter.allowedSeq, List.foldl] at this ⊢
    omega

/-- Any call on a limiter with nonnegative counters and some maximum equal
to zero is rejected. -/
lemma allowed_rejects_of_zero_max (l : Limiter) (now : Int)
    (hs : 0 ≤ l.reqPerSecond) (hm : 0 ≤ l.reqPerMinute) (hh : 0 ≤ l.reqPerHour)
    (hz : l.maxPerSecond = 0 ∨ l.maxPerMinute = 0 ∨ l.maxPerHour = 0) :
    (l.Allowed now).1.err ≠ none := by
  simp only [Limiter.Allowed, Limiter.hourStep, Limiter.minStep, Limiter.secStep,
    Limiter.hourReset, Limiter.minReset, Limiter.secReset, Limiter.allow, Limiter.block]
  split_ifs <;> simp_all <;> omega

set_option maxHeartbeats 3200000 in
/-- C1: for every limiter and every window, `Allowed` first resets the
window (counter to zero, window-start to `now`) when the current time has
advanced past the window boundary (1s / 60s / 3600s) since window-start,
then increments the counter, and rejects with the remaining time to the
window boundary as retry delay when the counter exceeds the maximum
(the minute window is processed only when the hour check passes, the second
window only when both coarser checks pass); in particular a fresh limiter
with `maxPerSecond = 3` and non-binding minute/hour maxima allows the first
three calls of a second, rejects the fourth with a delay of at most one
second, and allows calls again once the second boundary has elapsed. -/
theorem limiter_allowed_window_semantics :
    (∀ (l : Limiter) (now : Int),
      ((now - l.lastHour > 3599 → (l.Allowed now).2.lastHour = now) ∧
       (¬ (now - l.lastHour > 3599) → (l.Allowed now).2.lastHour = l.lastHour) ∧
       (l.Allowed now).2.reqPerHour = (l.hourReset now).reqPerHour + 1 ∧
       ((l.Allowed now).1.err = some .hour ↔ l.hourExceeds now) ∧
       ((l.Allowed now).1.err = some .hour →
         (l.Allowed now).1.d = nsHour - nsSecond * (now - (l.Allowed now).2.lastHour))) ∧
      (¬ l.hourExceeds now →
        ((now - l.lastMin > 59 → (l.Allowed now).2.lastMin = now) ∧
         (¬ (now - l.lastMin > 59) → (l.Allowed now).2.lastMin = l.lastMin) ∧
         (l.Allowed now).2.reqPerMinute = (l.minReset now).reqPerMinute + 1 ∧
         ((l.Allowed now).1.err = some .minute ↔ l.minuteExceeds now) ∧
         ((l.Allowed now).1.err = some .minute →
           (l.Allowed now).1.d = nsMinute - nsSecond * (now - (l.Allowed now).2.lastMin)))) ∧
      (¬ l.hourExceeds now → ¬ l.minuteExceeds now →
        ((now - l.lastSec > 0 → (l.Allowed now).2.lastSec = now) ∧
         (¬ (now - l.lastSec > 0) → (l.Allowed now).2.lastSec = l.lastSec) ∧
         (l.Allowed now).2.reqPerSecond = (l.secReset now).reqPerSecond + 1 ∧
         ((l.Allowed now).1.err = some .second ↔ l.secondExceeds now) ∧
         ((l.Allowed now).1.err = some .second →
           (l.Allowed now).1.d = nsSecond - nsSecond * (now - (l.Allowed now).2.lastSec))))) ∧
    (∀ (ts maxM maxH : Int), 5 ≤ maxM → 5 ≤ maxH →
      ((NewLimiter ts 3 maxM maxH).Allowed ts).1.err = none ∧
      (((NewLimiter ts 3 maxM maxH).allowedSeq [ts]).Allowed ts).1.err = none ∧
      (((NewLimiter ts 3 maxM maxH).allowedSeq [ts, ts]).Allowed ts).1.err = none ∧
      (((NewLimiter ts 3 maxM maxH).allowedSeq [ts, ts, ts]).Allowed ts).1.err =
        some .second ∧
      0 < (((NewLimiter ts 3 maxM maxH).allowedSeq [ts, ts, ts]).Allowed ts).1.d ∧
      (((NewLimiter ts 3 maxM maxH).allowedSeq [ts, ts, ts]).Allowed ts).1.d ≤ nsSecond ∧
      (((NewLimiter ts 3 maxM maxH).allowedSeq [ts, ts, ts, ts]).Allowed (ts + 1)).1.err =
        none) := by
  constructor
  · intro l now
    simp only [Limiter.Allowed, Limiter.hourExceeds, Limiter.minuteExceeds,
      Limiter.secondExceeds, Limiter.hourStep, Limiter.minStep, Limiter.secStep,
      Limiter.hourReset, Limiter.minReset, Limiter.secReset, Limiter.allow, Limiter.block]
    split_ifs <;> simp_all
  · intro ts maxM maxH hm hh
    have h1 : (NewLimiter ts 3 maxM maxH).Allowed ts =
        (⟨0, none⟩, ⟨3, maxM, maxH, 1, 1, 1, ts, ts, ts, 1, 0⟩) := by
      simp only [NewLimiter, Limiter.Allowed, Limiter.hourStep, Limiter.minStep,
        Limiter.secStep, Limiter.hourReset, Limiter.minReset, Limiter.secReset,
        Limiter.allow, Limiter.block]
      split_ifs <;> simp_all <;> omega
    have h2 : (Limiter.Allowed ⟨3, maxM, maxH, 1, 1, 1, ts, ts, ts, 1, 0⟩ ts) =
        (⟨0, none⟩, ⟨3, maxM, maxH, 2, 2, 2, ts, ts, ts, 2, 0⟩) := by
      simp only [Limiter.Allowed, Limiter.hourStep, Limiter.minStep, Limiter.secStep,
        Limiter.hourReset, Limiter.minReset, Limiter.secReset, Limiter.allow, Limiter.block]
      split_ifs <;> simp_all <;> omega
    have h3 : (Limiter.Allowed ⟨3, maxM, maxH, 2, 2, 2, ts, ts, ts, 2, 0⟩ ts) =
        (⟨0, none⟩, ⟨3, maxM, maxH, 3, 3, 3, ts, ts, ts, 3, 0⟩) := by
      simp only [Limiter.Allowed, Limiter.hourStep, Limiter.minStep, Limiter.secStep,
        Limiter.hourReset, Limiter.minReset, Limiter.secReset, Limiter.allow, Limiter.block]
      split_ifs <;> simp_all <;> omega
    have h4 : (Limiter.Allowed ⟨3, maxM, maxH, 3, 3, 3, ts, ts, ts, 3, 0⟩ ts) =
        (⟨nsSecond, some .second⟩, ⟨3, maxM, maxH, 4, 4, 4, ts, ts, ts, 3, 1⟩) := by
      simp only [Limiter.Allowed, Limiter.hourStep, Limiter.minStep, Limiter.secStep,
        Limiter.hourReset, Limiter.minReset, Limiter.secReset, Limiter.allow, Limiter.block]
      split_ifs <;> simp_all <;> omega
    have h5 : (Limiter.Allowed ⟨3, maxM, maxH, 4, 4, 4, ts, ts, ts, 3, 1⟩ (ts + 1)) =
        (⟨0, none⟩, ⟨3, maxM, maxH, 1, 5, 5, ts + 1, ts, ts, 4, 1⟩) := by
      simp only [Limiter.Allowed, Limiter.hourStep, Limiter.minStep, Limiter.secStep,
        Limiter.hourReset, Limiter.minReset, Limiter.secReset, Limiter.allow, Limiter.block]
      split_ifs <;> simp_all <;> omega
    simp only [Limiter.allowedSeq, List.foldl, h1, h2, h3, h4, h5]
    norm_num [nsSecond]

/-- Witness for C1: at `ts = 0`, `maxPerMinute = 100`, `maxPerHour = 1000`,
the fourth call within the same second is rejected by the second window. -/
theorem limiter_allowed_window_semantics_witness :
    (((NewLimiter 0 3 100 1000).allowedSeq [0, 0, 0]).Allowed 0).1.err =
      some .second :=
  (limiter_allowed_window_semantics.2 0 100 1000 (by norm_num) (by norm_num)).2.2.2.1

set_option maxHeartbeats 1600000 in
/-- C4: the windows are checked coarsest-first: an exceeded hour window is
reported regardless of the finer windows, the minute window is reported only
when the hour check passes, the second window only when both coarser checks
pass, and the first exceeded check determines the returned error and retry
delay. -/
theorem limiter_coarsest_window_first (l : Limiter) (now : Int) :
    (l.hourExceeds now →
      (l.Allowed now).1.err = some .hour ∧
      (l.Allowed now).1.d = nsHour - nsSecond * (now - (l.hourReset now).lastHour)) ∧
    (¬ l.hourExceeds now → l.minuteExceeds now →
      (l.Allowed now).1.err = some .minute ∧
      (l.Allowed now).1.d = nsMinute - nsSecond * (now - (l.minReset now).lastMin)) ∧
    (¬ l.hourExceeds now → ¬ l.minuteExceeds now → l.secondExceeds now →
      (l.Allowed now).1.err = some .second ∧
      (l.Allowed now).1.d = nsSecond - nsSecond * (now - (l.secReset now).lastSec)) ∧
    (¬ l.hourExceeds now → ¬ l.minuteExceeds now → ¬ l.secondExceeds now →
      (l.Allowed now).1 = ⟨0, none⟩) := by
  simp only [Limiter.Allowed, Limiter.hourExceeds, Limiter.minuteExceeds,
    Limiter.secondExceeds, Limiter.hourStep, Limiter.minStep, Limiter.secStep,
    Limiter.hourReset, Limiter.minReset, Limiter.secReset, Limiter.allow, Limiter.block]
  split_ifs <;> simp_all

/-- Witness for C4: a limiter on which every window would be exceeded
reports the hour window. -/
theorem limiter_coarsest_window_first_witness :
    ((NewLimiter 0 0 0 0).Allowed 0).1.err = some .hour :=
  ((limiter_coarsest_window_first (NewLimiter 0 0 0 0) 0).1 (by decide)).1

set_option maxHeartbeats 1600000 in
/-- C8: each call to `Allowed` increments exactly one of `totalAllowed`
(no error) and `totalBlocked` (error), so after any `N`-call sequence on a
fresh limiter `totalAllowed + totalBlocked = N`. -/
theorem limiter_totals_count_calls :
    (∀ (l : Limiter) (now : Int),
      ((l.Allowed now).1.err = none →
        (l.Allowed now).2.totalAllowed = l.totalAllowed + 1 ∧
        (l.Allowed now).2.totalBlocked = l.totalBlocked) ∧
      ((l.Allowed now).1.err ≠ none →
        (l.Allowed now).2.totalBlocked = l.totalBlocked + 1 ∧
        (l.Allowed now).2.totalAllowed = l.totalAllowed) ∧
      (l.Allowed now).2.totalAllowed + (l.Allowed now).2.totalBlocked =
        l.totalAllowed + l.totalBlocked + 1) ∧
    (∀ (ts s m h : Int) (times : List Int),
      ((NewLimiter ts s m h).allowedSeq times).totalAllowed +
        ((NewLimiter ts s m h).allowedSeq times).totalBlocked = times.length) := by
  constructor
  · intro l now
    refine ⟨?_, ?_, allowed_total_step l now⟩ <;>
    · simp only [Limiter.Allowed, Limiter.hourStep, Limiter.minStep, Limiter.secStep,
        Limiter.hourReset, Limiter.minReset, Limiter.secReset, Limiter.allow, Limiter.block]
      split_ifs <;> simp_all
  · intro ts s m h times
    have := allowedSeq_total (NewLimiter ts s m h) times
    simp only [NewLimiter] at this ⊢
    omega

/-- Witness for C8: one allowed call on a fresh limiter sets
`totalAllowed = 1` and leaves `totalBlocked = 0`. -/
theorem limiter_totals_count_calls_witness :
    ((NewLimiter 0 1 1 1).Allowed 0).2.totalAllowed =
      (NewLimiter 0 1 1 1).totalAllowed + 1 ∧
    ((NewLimiter 0 1 1 1).Allowed 0).2.totalBlocked =
      (NewLimiter 0 1 1 1).totalBlocked :=
  (limiter_totals_count_calls.1 (NewLimiter 0 1 1 1) 0).1 (by decide)

/-- C9: a rejection leaves every window finer than the rejecting one
untouched (neither counter nor window-start changes), while the rejecting
window's counter and the counters of all coarser windows have been
incremented (on top of any reset that applied). -/
theorem limiter_reject_frame (l : Limiter) (now : Int) :
    ((l.Allowed now).1.err = some .hour →
      (l.Allowed now).2.reqPerMinute = l.reqPerMinute ∧
      (l.Allowed now).2.reqPerSecond = l.reqPerSecond ∧
      (l.Allowed now).2.lastMin = l.lastMin ∧
      (l.Allowed now).2.lastSec = l.lastSec ∧
      (l.Allowed now).2.reqPerHour = (l.hourReset now).reqPerHour + 1) ∧
    ((l.Allowed now).1.err = some .minute →
      (l.Allowed now).2.reqPerSecond = l.reqPerSecond ∧
      (l.Allowed now).2.lastSec = l.lastSec ∧
      (l.Allowed now).2.reqPerHour = (l.hourReset now).reqPerHour + 1 ∧
      (l.Allowed now).2.reqPerMinute = (l.minReset now).reqPerMinute + 1) ∧
    ((l.Allowed now).1.err = some .second →
      (l.Allowed now).2.reqPerHour = (l.hourReset now).reqPerHour + 1 ∧
      (l.Allowed now).2.reqPerMinute = (l.minReset now).reqPerMinute + 1 ∧
      (l.Allowed now).2.reqPerSecond = (l.secReset now).reqPerSecond + 1) := by
  simp only [Limiter.Allowed, Limiter.hourStep, Limiter.minStep, Limiter.secStep,
    Limiter.hourReset, Limiter.minReset, Limiter.secReset, Limiter.allow, Limiter.block]
  split_ifs <;> simp_all

/-- Witness for C9: a call rejected by the hour window leaves the minute
counter unchanged. -/
theorem limiter_reject_frame_witness :
    ((NewLimiter 0 5 5 0).Allowed 0).2.reqPerMinute =
      (NewLimiter 0 5 5 0).reqPerMinute :=
  ((limiter_reject_frame (NewLimiter 0 5 5 0) 0).1 (by decide)).1

/-- C10: a limiter fresh from `NewLimiter` with all three maxima at least 1
allows its first call with a zero retry duration and no error, at any call
time; conversely when any maximum is 0, every call of every call sequence
on a fresh limiter is rejected. -/
theorem limiter_first_call_and_zero_max :
    (∀ (ts now s m h : Int), 1 ≤ s → 1 ≤ m → 1 ≤ h →
      ((NewLimiter ts s m h).Allowed now).1 = ⟨0, none⟩) ∧
    (∀ (ts s m h : Int) (times : List Int) (now : Int),
      (s = 0 ∨ m = 0 ∨ h = 0) →
      (((NewLimiter ts s m h).allowedSeq times).Allowed now).1.err ≠ none) := by
  constructor
  · intro ts now s m h hs hm hh
    simp only [NewLimiter, Limiter.Allowed, Limiter.hourStep, Limiter.minStep,
      Limiter.secStep, Limiter.hourReset, Limiter.minReset, Limiter.secReset,
      Limiter.allow, Limiter.block]
    split_ifs <;> simp_all <;> omega
  · intro ts s m h times now hz
    have hinv := allowedSeq_invariant (NewLimiter ts s m h) times
      (by simp [NewLimiter]) (by simp [NewLimiter]) (by simp [NewLimiter])
    refine allowed_rejects_of_zero_max _ now hinv.1.1 hinv.1.2.1 hinv.1.2.2 ?_
    rcases hz with hz | hz | hz
    · exact Or.inl (by rw [hinv.2.1]; simpa [NewLimiter] using hz)
    · exact Or.inr (Or.inl (by rw [hinv.2.2.1]; simpa [NewLimiter] using hz))
    · exact Or.inr (Or.inr (by rw [hinv.2.2.2]; simpa [NewLimiter] using hz))

/-- Witness for C10: the first call on `NewLimiter 0 1 1 1` is allowed at
time 7, and any call on a fresh limiter whose second maximum is 0 is
rejected. -/
theorem limiter_first_call_and_zero_max_witness :
    ((NewLimiter 0 1 1 1).Allowed 7).1 = ⟨0, none⟩ ∧
    (((NewLimiter 0 0 5 5).allowedSeq []).Allowed 0).1.err ≠ none :=
  ⟨limiter_first_call_and_zero_max.1 0 7 1 1 1 (by norm_num) (by norm_num) (by norm_num),
   limiter_first_call_and_zero_max.2 0 0 5 5 [] 0 (Or.inl rfl)⟩

/-- `strconv.Itoa(int(d.Seconds() + 1))` as an `Int`: for the nonnegative
whole-nanosecond durations of this model, `int(d.Seconds()+1)` is
`floor(d/1e9) + 1`, i.e. floor division of `d + 1s` by one second. -/
def retrySeconds (d : Int) : Int := (d + nsSecond).fdiv nsSecond

/-- Written from the spec's words, for comparison: "`X-Rate-Limit-Reset`
and `Retry-After` as integer seconds (rounded up)" — the ceiling of the
delay `d` (nanoseconds) in seconds. -/
def ceilSecondsSpec (d : Int) : Int := -((-d).fdiv nsSecond)

/-- `fmt.Sprintf("%ds, %dm, %dh", s, m, h)`. -/
def limitsHeader (s m h : Int) : String :=
  toString s ++ "s, " ++ toString m ++ "m, " ++ toString h ++ "h"

/-- The outcome of one request through the `RateLimiter` middleware: the
headers it set, the `Response` it returned (`none` is the Go `nil`, a
rejection is `some (429, w)` modelling
`NewJSONErrorResponse(http.StatusTooManyRequests, err)`), and the limiter
state after the call. -/
structure RLOutcome where
  headers : List (String × String)
  response : Option (Int × Window)
  limiter : Limiter
deriving DecidableEq, Repr

/-- The two headers the middleware always sets when `setHeaders` holds:
the configured limits and, from `RequestsLeft` after the `Allowed` call,
the remaining allowance. -/
def baseHeaders (l : Limiter) (now : Int) (setHeaders : Bool) : List (String × String) :=
  if setHeaders then
    [("X-Rate-Limit-Limit", limitsHeader l.maxPerSecond l.maxPerMinute l.maxPerHour),
     ("X-Rate-Limit-Remaining",
       limitsHeader ((l.Allowed now).2.RequestsLeft).1
         ((l.Allowed now).2.RequestsLeft).2.1 ((l.Allowed now).2.RequestsLeft).2.2)]
  else []

/-- One request through the closure returned by `RateLimiter`
(ratelimit.go lines 25-52) for a fixed caller key, as a function of that
caller's limiter state and the current Unix time. -/
def rateLimiterStep (l : Limiter) (now : Int) (setHeaders : Bool) : RLOutcome :=
  match (l.Allowed now).1.err with
  | none => ⟨baseHeaders l now setHeaders, none, (l.Allowed now).2⟩
  | some w =>
      ⟨baseHeaders l now setHeaders ++
         (if setHeaders then
            [("X-Rate-Limit-Reset", toString (retrySeconds (l.Allowed now).1.d)),
             ("Retry-After", toString (retrySeconds (l.Allowed now).1.d))]
          else []),
       some (429, w), (l.Allowed now).2⟩

/-- Every duration `Allowed` returns is a whole number of seconds. -/
lemma allowed_d_mod (l : Limiter) (now : Int) :
    (l.Allowed now).1.d % nsSecond = 0 := by
  simp only [Limiter.Allowed, Limiter.hourStep, Limiter.minStep, Limiter.secStep,
    Limiter.hourReset, Limiter.minReset, Limiter.secReset, Limiter.allow, Limiter.block,
    nsHour, nsMinute, nsSecond]
  split_ifs <;> simp_all <;> omega

/-- The ticker period of `Limiters.clean`: `time.Minute * 25`. -/
def cleanTickPeriod : Int := 25 * nsMinute

/-- The idle threshold of `Limiters.clean`:
`checkDuration = time.Hour + (time.Minute * 30)`. -/
def checkDuration : Int := nsHour + 30 * nsMinute

/-- One tick of the `Limiters.clean` sweep over a registry snapshot: the
tick time `t` is in nanoseconds, and an entry is deleted when
`t.Sub(l.LastAction()) > checkDuration`. -/
def Limiters.sweep (t : Int) (reg : List (String × Limiter)) : List (String × Limiter) :=
  reg.filter fun kv => decide (¬ (t - kv.2.lastAction * nsSecond > checkDuration))

/-- C5 (counterexample): the claim says the `Retry-After` header is the
ceiling of the retry delay in seconds; on a concrete rejected call (fresh
limiter with `maxPerSecond = 0`, delay exactly one second) the header is
"2", not the ceiling "1". -/
theorem rate_limit_header_not_ceiling :
    List.lookup "Retry-After" (rateLimiterStep (NewLimiter 0 0 5 5) 0 true).headers ≠
      some (toString (ceilSecondsSpec (((NewLimiter 0 0 5 5).Allowed 0).1.d))) := by
  decide

/-- C5 (amended): on every rejected call with `setHeaders` enabled, the
delay is a whole number of seconds and `X-Rate-Limit-Reset` and
`Retry-After` are set to `int(d.Seconds() + 1)`, i.e. the delay in integer
seconds plus one — one more than the ceiling of the delay in seconds. -/
theorem rate_limit_reset_header_plus_one (l : Limiter) (now : Int) (w : Window)
    (h : (l.Allowed now).1.err = some w) :
    (l.Allowed now).1.d % nsSecond = 0 ∧
    retrySeconds ((l.Allowed now).1.d) = ceilSecondsSpec ((l.Allowed now).1.d) + 1 ∧
    List.lookup "X-Rate-Limit-Reset" (rateLimiterStep l now true).headers =
      some (toString (retrySeconds ((l.Allowed now).1.d))) ∧
    List.lookup "Retry-After" (rateLimiterStep l now true).headers =
      some (toString (retrySeconds ((l.Allowed now).1.d))) := by
  have hmod := allowed_d_mod l now
  obtain ⟨q, hq⟩ : nsSecond ∣ (l.Allowed now).1.d := Int.dvd_of_emod_eq_zero hmod
  refine ⟨hmod, ?_, ?_, ?_⟩
  · rw [hq, retrySeconds, ceilSecondsSpec,
      show nsSecond * q + nsSecond = (q + 1) * nsSecond by ring,
      show -(nsSecond * q) = (-q) * nsSecond by ring,
      Int.mul_fdiv_cancel _ (by norm_num [nsSecond]),
      Int.mul_fdiv_cancel _ (by norm_num [nsSecond])]
    ring
  · simp [rateLimiterStep, h, baseHeaders, List.lookup]
  · simp [rateLimiterStep, h, baseHeaders, List.lookup]

/-- Witness for the amended C5 at a concrete rejected call. -/
theorem rate_limit_reset_header_plus_one_witness :
    ((NewLimiter 0 0 5 5).Allowed 0).1.d % nsSecond = 0 ∧
    retrySeconds (((NewLimiter 0 0 5 5).Allowed 0).1.d) =
      ceilSecondsSpec (((NewLimiter 0 0 5 5).Allowed 0).1.d) + 1 ∧
    List.lookup "X-Rate-Limit-Reset"
        (rateLimiterStep (NewLimiter 0 0 5 5) 0 true).headers =
      some (toString (retrySeconds (((NewLimiter 0 0 5 5).Allowed 0).1.d))) ∧
    List.lookup "Retry-After"
        (rateLimiterStep (NewLimiter 0 0 5 5) 0 true).headers =
      some (toString (retrySeconds (((NewLimiter 0 0 5 5).Allowed 0).1.d))) :=
  rate_limit_reset_header_plus_one (NewLimiter 0 0 5 5) 0 .second (by decide)

/-- C6: the middleware returns the absent response (Go `nil`) exactly when
the limiter permits the call, and on rejection it returns the structured
JSON error response with HTTP status 429. -/
theorem rate_limiter_absent_iff_allowed (l : Limiter) (now : Int) (sh : Bool) :
    ((rateLimiterStep l now sh).response = none ↔ (l.Allowed now).1.err = none) ∧
    (∀ w, (l.Allowed now).1.err = some w →
      (rateLimiterStep l now sh).response = some (429, w)) := by
  rcases h : (l.Allowed now).1.err with _ | w <;>
    simp [rateLimiterStep, h]

/-- Witness for C6: an allowed call returns the absent response, a rejected
call returns the 429 response. -/
theorem rate_limiter_absent_iff_allowed_witness :
    (rateLimiterStep (NewLimiter 0 1 1 1) 0 true).response = none ∧
    (rateLimiterStep (NewLimiter 0 0 5 5) 0 false).response = some (429, .second) :=
  ⟨(rate_limiter_absent_iff_allowed (NewLimiter 0 1 1 1) 0 true).1.mpr (by decide),
   (rate_limiter_absent_iff_allowed (NewLimiter 0 0 5 5) 0 false).2 .second (by decide)⟩

/-- C7 (counterexample): the claim says the sweep period is strictly longer
than the hour window; in the code the ticker period is 25 minutes, which is
shorter than the hour window. -/
theorem sweep_period_shorter_than_hour : cleanTickPeriod < nsHour := by decide

/-- C7 (amended): the sweep runs at a fixed 25-minute period — shorter than
the hour window (it is the idle threshold, 1h30m, that exceeds the hour
window) — and each tick keeps exactly the limiters whose most recent action
is within the idle threshold of the tick time, removing all others. -/
theorem sweep_period_and_eviction :
    cleanTickPeriod < nsHour ∧ nsHour < checkDuration ∧
    ∀ (t : Int) (reg : List (String × Limiter)) (kv : String × Limiter),
      kv ∈ Limiters.sweep t reg ↔
        kv ∈ reg ∧ ¬ (t - kv.2.lastAction * nsSecond > checkDuration) := by
  refine ⟨by decide, by decide, fun t reg kv => ?_⟩
  simp [Limiters.sweep, List.mem_filter]

/-- Witness for C7 (amended): a fresh entry survives a sweep at its own
creation time. -/
theorem sweep_period_and_eviction_witness :
    ("k", NewLimiter 0 1 1 1) ∈ Limiters.sweep 0 [("k", NewLimiter 0 1 1 1)] :=
  (sweep_period_and_eviction.2.2 0 [("k", NewLimiter 0 1 1 1)]
    ("k", NewLimiter 0 1 1 1)).mpr ⟨by simp, by decide⟩

/-- Modelled from the spec: the trie router implementation (the `router`
package's node type and `Match`) is not under src/ — only its test
`TestBugGithub3` is. A pattern segment is static literal text, a named
parameter `:x` capturing one segment, or a wildcard `*x` capturing the
remainder. -/
inductive Seg where
  | static (s : String)
  | named (n : String)
  | wildcard (n : String)
deriving DecidableEq, Repr

/-- Splitting a path on `/`, dropping empty segments (`acc` carries the
current segment's characters in reverse). -/
def splitSegs : List Char → List Char → List String
  | [], acc => if acc.isEmpty then [] else [String.mk acc.reverse]
  | c :: cs, acc =>
    if c = '/' then
      if acc.isEmpty then splitSegs cs [] else String.mk acc.reverse :: splitSegs cs []
    else splitSegs cs (c :: acc)
termination_by structural cs _ => cs

/-- Modelled from the spec: "split the request path into segments on `/`"
with normalization collapsing empty segments. -/
def splitPath (p : String) : List String := splitSegs p.data []

/-- Modelled from the spec: a pattern segment beginning with `:` is a named
parameter, one beginning with `*` a wildcard, anything else static text. -/
def parseSeg (s : String) : Seg :=
  match s.data with
  | ':' :: rest => .named (String.mk rest)
  | '*' :: rest => .wildcard (String.mk rest)
  | _ => .static s

/-- A registered pattern, parsed into segments. -/
def parsePattern (p : String) : List Seg := (splitPath p).map parseSeg

/-- A live trie position during matching: the remaining pattern segments of
one registered route and its handler identifier. -/
abbrev Pat := List Seg × Nat

/-- The static children of the current trie position that match `seg`
exactly, descended one level. -/
def staticTails (seg : String) (pats : List Pat) : List Pat :=
  pats.filterMap fun p =>
    match p.1 with
    | .static s :: ps => if s = seg then some (ps, p.2) else none
    | _ => none

/-- The capture name of the named child at the current trie position, when
one exists (a valid trie has at most one named-child name per position). -/
def namedName (pats : List Pat) : Option String :=
  pats.findSome? fun p =>
    match p.1 with
    | .named n :: _ => some n
    | _ => none

/-- The named child of the current trie position, descended one level. -/
def namedTails (pats : List Pat) : List Pat :=
  pats.filterMap fun p =>
    match p.1 with
    | .named _ :: ps => some (ps, p.2)
    | _ => none

/-- The wildcard child of the current trie position, when one exists. -/
def wildFirst (pats : List Pat) : Option (String × Nat) :=
  pats.findSome? fun p =>
    match p.1 with
    | .wildcard n :: _ => some (n, p.2)
    | _ => none

/-- The remaining path segments re-joined by `/` for a wildcard capture. -/
def joinSegs : List String → String
  | [] => ""
  | [s] => s
  | s :: rest => s ++ "/" ++ joinSegs rest

/-- Modelled from the spec: `Match` walks the trie one path segment at a
time; at each depth it prefers (1) an exact static child, (2) the named
child (capturing the segment), (3) the wildcard child (capturing the
remainder joined by `/`); captures are collected in traversal order. -/
def trieMatch : List Pat → List String → Option (Nat × List (String × String))
  | pats, [] => (pats.find? fun p => p.1.isEmpty).map fun p => (p.2, [])
  | pats, seg :: rest =>
    if staticTails seg pats ≠ [] then
      trieMatch (staticTails seg pats) rest
    else
      match namedName pats with
      | some n => (trieMatch (namedTails pats) rest).map fun r => (r.1, (n, seg) :: r.2)
      | none =>
        match wildFirst pats with
        | some (n, h) => some (h, [(n, joinSegs (seg :: rest))])
        | none => none
termination_by structural _ path => path

/-- C2: when the current path segment matches a static child, matching
descends through the static children and a named sibling is ignored
(static beats named); and matching `/api/files/Personal/data/hi.txt`
against the registered pattern `/api/files/:bkt/:type/:filename` yields
the params `bkt=Personal, type=data, filename=hi.txt` in that order. -/
theorem router_static_beats_named :
    (∀ (pats : List Pat) (seg : String) (rest : List String),
      staticTails seg pats ≠ [] → (namedName pats).isSome →
      trieMatch pats (seg :: rest) = trieMatch (staticTails seg pats) rest) ∧
    trieMatch [(parsePattern "/api/files/:bkt/:type/:filename", 0)]
        (splitPath "/api/files/Personal/data/hi.txt") =
      some (0, [("bkt", "Personal"), ("type", "data"), ("filename", "hi.txt")]) :=
  ⟨fun _ _ _ hs _ => by simp [trieMatch, hs], by decide⟩

/-- Witness for C2: at a position offering both the static pattern
`/users/list` and the named pattern `/users/:id`, the segment `list`
resolves through the static child. -/
theorem router_static_beats_named_witness :
    trieMatch [([Seg.static "list"], 0), ([Seg.named "id"], 1)] ["list"] =
      trieMatch (staticTails "list" [([Seg.static "list"], 0), ([Seg.named "id"], 1)]) [] :=
  router_static_beats_named.1 [([Seg.static "list"], 0), ([Seg.named "id"], 1)]
    "list" [] (by decide) (by decide)

/-- The per-request dispatch context of `groupHandlerChain.Serve`, with the
invoked middleware / handler indices recorded for the execution-order
statements.  A unit (middleware or handler) is represented by the response
it returns: `none` is the Go `nil` (absent response). -/
structure DCtx where
  done : Bool
  written : List Nat
  invokedMW : List Nat
  invokedH : List Nat
deriving DecidableEq, Repr

/-- Modelled from the spec: `Response.WriteToCtx` (the `Context` type is
not under src/) writes the response to the underlying output and finalizes
the context, setting its done flag. -/
def writeToCtx (r : Nat) (c : DCtx) : DCtx :=
  { c with written := c.written ++ [r], done := true }

/-- The `ctx.nextMW` closure of `groupHandlerChain.Serve`
(src/unnamed/part_000 lines 116-126): advance through the middleware while
not done; on a non-nil response, write it and break. -/
def mwLoop : List (Option Nat) → Nat → DCtx → DCtx
  | [], _, c => c
  | u :: us, idx, c =>
    if c.done then c
    else
      match u with
      | some r => writeToCtx r { c with invokedMW := c.invokedMW ++ [idx] }
      | none => mwLoop us (idx + 1) { c with invokedMW := c.invokedMW ++ [idx] }
termination_by structural l _ _ => l

/-- The `ctx.next` closure of `groupHandlerChain.Serve`
(src/unnamed/part_000 lines 128-138), over the route handler list. -/
def hLoop : List (Option Nat) → Nat → DCtx → DCtx
  | [], _, c => c
  | u :: us, idx, c =>
    if c.done then c
    else
      match u with
      | some r => writeToCtx r { c with invokedH := c.invokedH ++ [idx] }
      | none => hLoop us (idx + 1) { c with invokedH := c.invokedH ++ [idx] }
termination_by structural l _ _ => l

/-- Modelled from the spec: `ctx.Next` (the `Context` type is not under
src/) runs the middleware phase and then the handler phase over one fresh
request context, each phase halting when the done flag is set. -/
def serveChain (mw hc : List (Option Nat)) : DCtx :=
  hLoop hc 0 (mwLoop mw 0 ⟨false, [], [], []⟩)

lemma range_map_add_succ (n idx : Nat) :
    (List.range (n + 1)).map (· + idx) = idx :: (List.range n).map (· + (idx + 1)) := by
  rw [List.range_succ_eq_map]
  simp only [List.map_cons, List.map_map, Nat.zero_add]
  refine congrArg (idx :: ·) (List.map_congr_left fun a _ => ?_)
  simp only [Function.comp_apply]
  omega

/-- A finalized context passes through the handler loop untouched. -/
lemma hLoop_done (hc : List (Option Nat)) (idx : Nat) (c : DCtx) (h : c.done = true) :
    hLoop hc idx c = c := by
  cases hc <;> simp [hLoop, h]

/-- When every middleware returns the absent response, the middleware loop
invokes all of them in order and changes nothing else. -/
lemma mwLoop_all_none (mw : List (Option Nat)) (idx : Nat) (c : DCtx)
    (h : ∀ u ∈ mw, u = none) (hd : c.done = false) :
    mwLoop mw idx c =
      { c with invokedMW := c.invokedMW ++ (List.range mw.length).map (· + idx) } := by
  induction mw generalizing idx c with
  | nil => simp [mwLoop]
  | cons u us ih =>
    have hu : u = none := h u (by simp)
    subst hu
    rw [mwLoop]
    simp only [hd, if_neg (by simp : ¬ (false = true))]
    rw [ih (idx + 1) _ (fun v hv => h v (by simp [hv])) (by simp)]
    simp [List.length_cons, range_map_add_succ, List.append_assoc]

/-- When the middleware at index `i` is the first to return a response, the
middleware loop invokes exactly the middleware up to `i`, writes that
response, and finalizes the context. -/
lemma mwLoop_first_some (mw : List (Option Nat)) (i r : Nat) (idx : Nat) (c : DCtx)
    (h : mw[i]? = some (some r)) (hb : ∀ j, j < i → mw[j]? = some none)
    (hd : c.done = false) :
    mwLoop mw idx c =
      writeToCtx r { c with invokedMW := c.invokedMW ++ (List.range (i + 1)).map (· + idx) } := by
  induction mw generalizing i idx c with
  | nil => simp at h
  | cons u us ih =>
    cases i with
    | zero =>
      simp only [List.getElem?_cons_zero, Option.some.injEq] at h
      subst h
      rw [mwLoop]
      simp [hd, (by decide : List.range 1 = [0])]
    | succ i' =>
      have hu : u = none := by simpa using hb 0 (by omega)
      subst hu
      rw [mwLoop]
      simp only [hd, if_neg (by simp : ¬ (false = true))]
      rw [ih i' (idx + 1) _ (by simpa using h)
        (fun j hj => by simpa using hb (j + 1) (by omega)) (by simp)]
      simp [range_map_add_succ, List.append_assoc]

/-- C3: when some group middleware returns a non-absent response (the first
one being at index `i`), that response alone is written, the context is
finalized, exactly the middleware up to `i` ran in order, and no route
handler is ever invoked; when instead every middleware returns the absent
response, the middleware phase runs to completion in registration order and
only then does the handler phase begin on its own fresh cursor. -/
theorem dispatch_short_circuit :
    (∀ (mw hc : List (Option Nat)) (i r : Nat),
      mw[i]? = some (some r) → (∀ j, j < i → mw[j]? = some none) →
      serveChain mw hc = ⟨true, [r], List.range (i + 1), []⟩) ∧
    (∀ (mw hc : List (Option Nat)), (∀ u ∈ mw, u = none) →
      serveChain mw hc = hLoop hc 0 ⟨false, [], List.range mw.length, []⟩) := by
  constructor
  · intro mw hc i r h hb
    unfold serveChain
    rw [mwLoop_first_some mw i r 0 _ h hb rfl]
    rw [hLoop_done _ _ _ rfl]
    simp [writeToCtx]
  · intro mw hc h
    unfold serveChain
    rw [mwLoop_all_none mw 0 _ h rfl]
    simp

/-- Witness for C3: with middleware `[nil, respond 7]` and one route
handler, only response 7 is written, middleware 0 and 1 ran, and the route
handler never ran; with all-nil middleware the handler phase begins after
both middleware ran. -/
theorem dispatch_short_circuit_witness :
    serveChain [none, some 7] [some 9] = ⟨true, [7], List.range (1 + 1), []⟩ ∧
    serveChain [none, none] [some 9] =
      hLoop [some 9] 0 ⟨false, [], List.range ([none, none] : List (Option Nat)).length, []⟩ :=
  ⟨dispatch_short_circuit.1 [none, some 7] [some 9] 1 7 rfl
      (fun j hj => by
        have : j = 0 := by omega
        subst this
        rfl),
   dispatch_short_circuit.2 [none, none] [some 9]
      (fun u hu => by
        rcases hu with _ | ⟨_, hu⟩
        · rfl
        · rcases hu with _ | ⟨_, hu⟩
          · rfl
          · cases hu)⟩

end Gserv
